import Mathlib

set_option maxHeartbeats 1000000
set_option maxRecDepth 4000

/-!
Verification development for the chatgpt-bot conversation-context linking and
threaded-delivery subsystem (src/libs/bot.ts).

The TypeScript source is shallowly embedded as pure Lean functions.  Each
handler is modelled as a function producing the ordered list of externally
visible primitive actions it performs (chat-transport sends/edits, redis SET
operations, completion-provider calls); the redis store is an association list
in which a later SET shadows an earlier binding.  Telegram assigns fresh
message ids to sent messages; this is modelled by threading a counter that is
incremented at each successful send.  Failures of the completion provider and
of Markdown ("rich text") rendering are supplied by an oracle.
-/

namespace ChatBot

/-- Roles of chat completion message parameters used by the program. -/
inductive Role where
  | system
  | user
  | assistant
deriving DecidableEq, Repr

/-- One conversation turn (OpenAI.Chat.ChatCompletionMessageParam restricted to
the role/content fields the program uses). -/
structure ChatMessageParam where
  role : Role
  content : String
deriving DecidableEq, Repr

/-- The ChatContext record of src/libs/bot.ts: a turn sequence and a model id. -/
structure ChatContext where
  params : List ChatMessageParam
  model : String
deriving DecidableEq, Repr

/-- A value stored in redis, modelled semantically rather than as raw text:
`ctx c` is the JSON.stringify image of a well-formed ChatContext `c`;
`str s` is a plain string value (message-to-context links are stored this
way), and it also stands for any blob whose JSON.parse either throws or
yields a falsy value — loading such a blob yields null in the source;
`badjson` is a corrupt blob whose JSON.parse succeeds with a truthy value
that is not a well-formed context (for example the blob "42", a valid JSON
number with no params array). -/
inductive Blob where
  | ctx (c : ChatContext)
  | str (s : String)
  | badjson
deriving DecidableEq, Repr

/-- The string value of a stored blob as the redis client returns it.  For the
two JSON cases the exact text is an opaque serialization; it is never equal to
any key this subsystem writes (all keys begin with "ctx:" or "msgid:"), so a
fixed placeholder is used. -/
def blobString : Blob → String
  | .str s => s
  | .ctx _ => "json"
  | .badjson => "json"

/-- The redis keyed store: an association list where the first binding wins,
so prepending models an overwriting SET. -/
abbrev RedisMap := List (String × Blob)

/-- redis SET: the new binding shadows any previous one. -/
def rset (m : RedisMap) (k : String) (v : Blob) : RedisMap := (k, v) :: m

/-- redis GET. -/
def rget : RedisMap → String → Option Blob
  | [], _ => none
  | (k, v) :: rest, key => if k = key then some v else rget rest key

/-- An externally visible primitive action performed by the bot. -/
inductive Action where
  | sendMessage (chatId : Int) (text : String) (messageId : Nat)
      (replyTo : Option Nat) (markdown : Bool)
  | editMessageText (chatId : Int) (messageId : Nat) (text : String) (markdown : Bool)
  | redisSet (key : String) (value : Blob)
  | chatCompletionsCreate (model : String) (messages : List ChatMessageParam)
deriving DecidableEq, Repr

/-- Replay the store effects of an action list onto a redis map. -/
def applyActions (m : RedisMap) : List Action → RedisMap
  | [] => m
  | a :: rest =>
    match a with
    | .redisSet k v => applyActions (rset m k v) rest
    | _ => applyActions m rest

/-- getMessageId of src/libs/bot.ts. -/
def getMessageId (chatId : Int) (messageId : Nat) : String :=
  "msgid:" ++ toString chatId ++ "-" ++ toString messageId

/-- updateContext of src/libs/bot.ts, as the store action it performs. -/
def updateContext (contextId : String) (context : ChatContext) : Action :=
  .redisSet contextId (.ctx context)

/-- linkMessageWithContext of src/libs/bot.ts, as the store action it performs. -/
def linkMessageWithContext (messageId : String) (contextId : String) : Action :=
  .redisSet messageId (.str contextId)

/-- The message field of one completion choice. -/
structure ChatCompletionMessage where
  content : Option String
deriving DecidableEq, Repr

/-- One choice of a completion response; the message field may be absent. -/
structure ChatCompletionChoice where
  message : Option ChatCompletionMessage
deriving DecidableEq, Repr

/-- A completion response; the choices field may be absent. -/
structure ChatCompletionResponse where
  choices : Option (List ChatCompletionChoice)
deriving DecidableEq, Repr

/-- JavaScript template-literal interpolation of elem.message?.content in
getOpenAIReply: an absent message interpolates as the text "undefined", a
null content as the text "null". -/
def choiceContentText : ChatCompletionChoice → String
  | ⟨none⟩ => "undefined"
  | ⟨some ⟨none⟩⟩ => "null"
  | ⟨some ⟨some s⟩⟩ => s

/-- The reply assembly in getOpenAIReply of src/libs/bot.ts:
resp.choices?.reduce over the choices, appending a newline and the choice's
interpolated content, starting from the empty string.  When the choices field
is absent the optional chaining yields undefined, modelled as none. -/
def assembleReply (choices : Option (List ChatCompletionChoice)) : Option String :=
  choices.map (fun cs =>
    cs.foldl (fun accum elem => accum ++ "\n" ++ choiceContentText elem) "")

/-- Failure oracle: outcomes of the completion provider and of Markdown
rendering, plus whether the initial placeholder send fails.  mdFail i decides
whether the Markdown-mode transport call for fragment i of doWriteReply
throws, and errMsg i is that error's message text.  Plain-text transport
calls are assumed to succeed. -/
structure Oracle where
  provider : String → List ChatMessageParam → Except String ChatCompletionResponse
  mdFail : Nat → Bool
  errMsg : Nat → String
  placeholderFail : Bool

/-- PART_SIZE of doWriteReply. -/
def PART_SIZE : Nat := 2048

/-- The chunking loop of doWriteReply on the character sequence, fuelled by a
bound on the number of iterations so the recursion is structural (full
characterization in chunkList_eq below). -/
def chunkListAux : Nat → List Char → List (List Char)
  | _, [] => []
  | 0, _ :: _ => []
  | n + 1, ch :: rest =>
    (ch :: rest).take PART_SIZE :: chunkListAux n ((ch :: rest).drop PART_SIZE)

/-- The chunking loop of doWriteReply on the character sequence: repeatedly
take the next PART_SIZE characters. -/
def chunkList (s : List Char) : List (List Char) :=
  chunkListAux s.length s

/-- The parts array computed by doWriteReply for a reply text. -/
def chunkParts (reply : String) : List String :=
  (chunkList reply.toList).map List.asString

/-- The fallback notice text sent when Markdown rendering fails. -/
def fallbackNotice (e : String) : String :=
  "Error while parsing markdown, fallback to plaintext: " ++ e

/-- The delivery loop of doWriteReply.  Arguments: remaining parts, the index
i of the first of them, the id of the previously delivered message, and the
fresh-message-id counter.  Fragment 0 edits the placeholder message (and is
not linked here; it was linked in doOpenAI); later fragments are sent as
replies to the previous fragment and linked.  A Markdown failure resends the
same fragment as plain text and then sends the fallback notice. -/
def writeParts (o : Oracle) (chatid : Int) (respMsgId : Nat) (contextId : String) :
    List String → Nat → Nat → Nat → List Action × Nat
  | [], _, _, c => ([], c)
  | p :: rest, i, prevId, c =>
    if i = 0 then
      if o.mdFail i then
        let t := writeParts o chatid respMsgId contextId rest (i + 1) prevId (c + 1)
        (Action.editMessageText chatid respMsgId p false ::
          Action.sendMessage chatid (fallbackNotice (o.errMsg i)) c none false :: t.1, t.2)
      else
        let t := writeParts o chatid respMsgId contextId rest (i + 1) prevId c
        (Action.editMessageText chatid respMsgId p true :: t.1, t.2)
    else
      if o.mdFail i then
        let t := writeParts o chatid respMsgId contextId rest (i + 1) c (c + 2)
        (Action.sendMessage chatid p c (some prevId) false ::
          Action.sendMessage chatid (fallbackNotice (o.errMsg i)) (c + 1) none false ::
          linkMessageWithContext (getMessageId chatid c) contextId :: t.1, t.2)
      else
        let t := writeParts o chatid respMsgId contextId rest (i + 1) c (c + 1)
        (Action.sendMessage chatid p c (some prevId) true ::
          linkMessageWithContext (getMessageId chatid c) contextId :: t.1, t.2)

/-- doWriteReply of src/libs/bot.ts. -/
def doWriteReply (o : Oracle) (reply : String) (respChatId : Int) (respMsgId : Nat)
    (contextId : String) (c : Nat) : List Action × Nat :=
  writeParts o respChatId respMsgId contextId (chunkParts reply) 0 respMsgId c

/-- The generic failure notice sent by doOpenAI's catch block. -/
def internalError (chatId : Int) (c : Nat) : Action :=
  Action.sendMessage chatId "Internal error, pls @🍊" c none false

/-- The placeholder text sent while waiting for the provider. -/
def placeholderText (model : String) : String :=
  "Waiting for reply from model `" ++ model ++ "`..."

/-- doOpenAI of src/libs/bot.ts: send the placeholder (a Markdown reply to the
user's message), persist the context, link the placeholder to the context id,
call the provider, and deliver the reply.  A provider failure, and likewise an
undefined assembled reply (absent choices, which makes reply.length throw in
doWriteReply), is caught and answered with the generic failure notice. -/
def doOpenAI (o : Oracle) (chatId : Int) (usermsgId : Nat) (model : String)
    (messages : List ChatMessageParam) (contextId : String) (c : Nat) :
    List Action × Nat :=
  if o.placeholderFail then
    ([internalError chatId c], c + 1)
  else
    let respId := c
    let pre : List Action :=
      [Action.sendMessage chatId (placeholderText model) respId (some usermsgId) true,
       updateContext contextId ⟨messages, model⟩,
       linkMessageWithContext (getMessageId chatId respId) contextId,
       Action.chatCompletionsCreate model messages]
    match o.provider model messages with
    | .error _ => (pre ++ [internalError chatId (c + 1)], c + 2)
    | .ok resp =>
      match assembleReply resp.choices with
      | none => (pre ++ [internalError chatId (c + 1)], c + 2)
      | some reply =>
        let t := doWriteReply o reply chatId respId contextId (c + 1)
        (pre ++ t.1, t.2)

/-- The reference to a replied-to message, with the fields the program reads. -/
structure MsgRef where
  chatId : Int
  messageId : Nat
  fromId : Option Int
deriving DecidableEq, Repr

/-- An incoming chat update, with the fields the program reads. -/
structure Message where
  chatId : Int
  messageId : Nat
  text : Option String
  fromId : Option Int
  replyToMessage : Option MsgRef
deriving DecidableEq, Repr

/-- The bot mention accepted by the command pattern. -/
def BOT_MENTION : List Char := "@babababababababababababababot".toList

/-- Drop a literal pattern from the front of the input, if it is there. -/
def dropLit : List Char → List Char → Option (List Char)
  | [], r => some r
  | _ :: _, [] => none
  | p :: ps, x :: xs => if x = p then dropLit ps xs else none

/-- Match the final " (.+)" of the command pattern with the s flag: a literal
space followed by a nonempty remainder (which may span lines). -/
def matchPayload (r : List Char) : Option (List Char) :=
  match r with
  | ' ' :: rest => if rest = [] then none else some rest
  | _ => none

/-- Match the optional greedy bot-mention group followed by the payload,
backtracking to the mention-free alternative when the greedy one fails. -/
def matchMention (r : List Char) : Option (List Char) :=
  match dropLit BOT_MENTION r with
  | some r2 =>
    match matchPayload r2 with
    | some g3 => some g3
    | none => matchPayload r
  | none => matchPayload r

/-- Match one variant-suffix alternative of the group (|3), then the rest of
the pattern. -/
def matchVariant (g1 : List Char) (r : List Char) : Option (List Char) :=
  match dropLit g1 r with
  | some r1 => matchMention r1
  | none => none

/-- Match the whole command pattern at one position, returning the variant
group and the payload group.  The regex alternation (|3) tries the empty
alternative first. -/
def matchAt (r : List Char) : Option (String × String) :=
  match dropLit "/openai".toList r with
  | none => none
  | some r0 =>
    match matchVariant [] r0 with
    | some g3 => some ("", g3.asString)
    | none =>
      match matchVariant ['3'] r0 with
      | some g3 => some ("3", g3.asString)
      | none => none

/-- The suffixes of the text that start just after a newline: with the m flag
the anchor of the pattern matches at every line start. -/
def lineTails : List Char → List (List Char)
  | [] => []
  | ch :: rest => (if ch = '\n' then [rest] else []) ++ lineTails rest

/-- First successful match over a list of candidate positions. -/
def firstMatch : List (List Char) → Option (String × String)
  | [] => none
  | r :: rest =>
    match matchAt r with
    | some g => some g
    | none => firstMatch rest

/-- usermsg.text.match(MSG_REGEX) of the dispatcher: the earliest line start
at which the command pattern matches, yielding the variant and payload groups. -/
def matchCommand (text : String) : Option (String × String) :=
  firstMatch (text.toList :: lineTails text.toList)

/-- The "no context found" notice of reply_handler. -/
def noContextNotice (chatId : Int) (userMsgId : Nat) (c : Nat) : Action :=
  Action.sendMessage chatId "No context found for this message? This bot is a 🤡"
    c (some userMsgId) false

/-- The non-text-message notice of reply_handler. -/
def nonTextNotice (chatId : Int) (userMsgId : Nat) (c : Nat) : Action :=
  Action.sendMessage chatId "Non-text message is currently unsupported"
    c (some userMsgId) false

/-- reply_handler of src/libs/bot.ts.  The Except error value models a thrown
fault escaping the handler (context.params.push on loaded JSON that is truthy
but has no params array); such a fault emits no store operation. -/
def replyHandler (o : Oracle) (redis : RedisMap) (usermsg : Message) (c : Nat) :
    Except Unit (List Action × Nat) :=
  match usermsg.replyToMessage with
  | none => .ok ([], c)
  | some replied =>
    let identifier := getMessageId replied.chatId replied.messageId
    match rget redis identifier with
    | none => .ok ([noContextNotice usermsg.chatId usermsg.messageId c], c + 1)
    | some blob =>
      let contextId := blobString blob
      if contextId = "" then
        .ok ([noContextNotice usermsg.chatId usermsg.messageId c], c + 1)
      else
        match rget redis contextId with
        | some (.ctx context) =>
          match usermsg.text with
          | none => .ok ([nonTextNotice usermsg.chatId usermsg.messageId c], c + 1)
          | some text =>
            .ok (doOpenAI o usermsg.chatId usermsg.messageId context.model
              (context.params ++ [⟨.user, text⟩]) contextId c)
        | some .badjson =>
          match usermsg.text with
          | none => .ok ([nonTextNotice usermsg.chatId usermsg.messageId c], c + 1)
          | some _ => .error ()
        | _ => .ok ([noContextNotice usermsg.chatId usermsg.messageId c], c + 1)

/-- The application state fields the dispatcher reads. -/
structure AppState where
  whitelist : List Int
  model : String

/-- The apostrophe character, first character of one ignore sentinel. -/
def apos : Char := Char.ofNat 39

/-- The ignore-sentinel test of the dispatcher: the reply text starts with two
apostrophes or two slashes. -/
def isIgnored (t : List Char) : Bool :=
  match t with
  | c1 :: c2 :: _ => (c1 = apos && c2 = apos) || (c1 = '/' && c2 = '/')
  | _ => false

/-- The per-update body of the dispatcher's message handler in
src/libs/bot.ts: whitelist check, text check, command match (new
conversation), else reply-to-bot continuation through reply_handler. -/
def processMessage (o : Oracle) (st : AppState) (botID : Int) (redis : RedisMap)
    (usermsg : Message) (c : Nat) : Except Unit (List Action × Nat) :=
  if st.whitelist.contains usermsg.chatId then
    match usermsg.text with
    | none => .ok ([], c)
    | some text =>
      if text = "" then .ok ([], c)
      else
        match matchCommand text with
        | some (g1, payload) =>
          let contextId :=
            "ctx:" ++ toString usermsg.chatId ++ "-" ++ toString usermsg.messageId
          let messages : List ChatMessageParam :=
            [⟨.system, "you should be helpful"⟩, ⟨.user, payload⟩]
          let model := if g1 = "3" then "gpt-3.5-turbo" else st.model
          .ok (doOpenAI o usermsg.chatId usermsg.messageId model messages contextId c)
        | none =>
          let isReplyingToBot :=
            match usermsg.replyToMessage with
            | some r => r.fromId == some botID
            | none => false
          if isReplyingToBot then
            if isIgnored text.toList then .ok ([], c)
            else replyHandler o redis usermsg c
          else .ok ([], c)
  else
    .ok ([Action.sendMessage usermsg.chatId "Permission denied" c none false], c + 1)

/-- Sequential processing of a list of incoming updates from a redis state,
replaying each update's store effects.  An escaped fault emits no store
operation, so the store is unchanged on the error case. -/
def runUpdates (st : AppState) (botID : Int) :
    List (Message × Oracle) → RedisMap → Nat → RedisMap
  | [], m, _ => m
  | (u, o) :: rest, m, c =>
    match processMessage o st botID m u c with
    | .error _ => runUpdates st botID rest m c
    | .ok (acts, c') => runUpdates st botID rest (applyActions m acts) c'

/-- The store state reached by one update, for evaluation theorems: the
update's actions replayed onto the starting store (unchanged when a fault
escapes, since a fault emits no store operation first). -/
def finalStore (o : Oracle) (st : AppState) (botID : Int) (m : RedisMap)
    (u : Message) (c : Nat) : RedisMap :=
  match processMessage o st botID m u c with
  | .ok (acts, _) => applyActions m acts
  | .error _ => m

/-- The action list of one update, for evaluation theorems. -/
def updateActs (o : Oracle) (st : AppState) (botID : Int) (m : RedisMap)
    (u : Message) (c : Nat) : List Action :=
  match processMessage o st botID m u c with
  | .ok (acts, _) => acts
  | .error _ => []

/-- The alternation property the specification claims of a persisted turn
sequence: an initial system turn followed by turns that strictly alternate
between user-authored and assistant-authored. -/
def alternatesUA : List ChatMessageParam → Bool
  | [] => true
  | [_] => true
  | p :: q :: rest =>
    ((p.role == Role.user && q.role == Role.assistant) ||
     (p.role == Role.assistant && q.role == Role.user)) && alternatesUA (q :: rest)

/-- The full claimed shape: system turn first, then strict user/assistant
alternation. -/
def strictlyAlternates : List ChatMessageParam → Bool
  | [] => false
  | sys :: rest => sys.role == Role.system && alternatesUA rest

/-- The shape the persisted turn sequences actually have: a system turn
followed only by user-authored turns. -/
def userOnlyAfterSystem : List ChatMessageParam → Bool
  | [] => false
  | sys :: rest => sys.role == Role.system && rest.all (fun p => p.role == Role.user)

/-- Invariant of a store: every persisted conversation context consists of a
system turn followed only by user-authored turns. -/
def StoreInv (m : RedisMap) : Prop :=
  ∀ k ctx, (k, Blob.ctx ctx) ∈ m → userOnlyAfterSystem ctx.params = true

/-- A fully successful oracle: the provider answers with one choice whose
content is "hi", and no transport call fails. -/
def specOracle : Oracle :=
  ⟨fun _ _ => .ok ⟨some [⟨some ⟨some "hi"⟩⟩]⟩, fun _ => false, fun _ => "boom", false⟩

/-- App state fixture: chat 100 whitelisted, default model gpt-4o. -/
def stA : AppState := ⟨[100], "gpt-4o"⟩

/-- Scenario A command message: chat 100, message 55, text "/openai hello". -/
def msgA : Message := ⟨100, 55, some "/openai hello", some 7, none⟩

/-- A continuation message replying to the placeholder the bot sent for
Scenario A (the placeholder was allocated message id 1000 below). -/
def msgB : Message := ⟨100, 60, some "more", some 7, some ⟨100, 1000, some 999⟩⟩

/-- The system primer turn. -/
def primer : ChatMessageParam := ⟨.system, "you should be helpful"⟩

theorem rget_rset_self (m : RedisMap) (k : String) (v : Blob) :
    rget (rset m k v) k = some v := by
  simp [rget, rset]

theorem rget_rset_ne (m : RedisMap) (k key : String) (v : Blob) (h : k ≠ key) :
    rget (rset m k v) key = rget m key := by
  simp [rget, rset, h]

theorem applyActions_append (m : RedisMap) (a b : List Action) :
    applyActions m (a ++ b) = applyActions (applyActions m a) b := by
  induction a generalizing m with
  | nil => rfl
  | cons x rest ih => cases x <;> simp [applyActions, ih]

theorem rget_applyActions_of_ne (m : RedisMap) (acts : List Action) (key : String)
    (h : ∀ k v, Action.redisSet k v ∈ acts → k ≠ key) :
    rget (applyActions m acts) key = rget m key := by
  induction acts generalizing m with
  | nil => rfl
  | cons x rest ih =>
    cases x with
    | redisSet k v =>
      have hstep : applyActions m (Action.redisSet k v :: rest)
          = applyActions (rset m k v) rest := rfl
      rw [hstep, ih _ (fun k' v' hm => h k' v' (List.mem_cons_of_mem _ hm))]
      exact rget_rset_ne _ _ _ _ (h k v (List.mem_cons_self _ _))
    | sendMessage a t mid rt md => exact ih _ (fun k' v' hm => h k' v' (List.mem_cons_of_mem _ hm))
    | editMessageText a mid t md => exact ih _ (fun k' v' hm => h k' v' (List.mem_cons_of_mem _ hm))
    | chatCompletionsCreate a b => exact ih _ (fun k' v' hm => h k' v' (List.mem_cons_of_mem _ hm))

theorem rget_mem {m : RedisMap} {k : String} {v : Blob} (h : rget m k = some v) :
    (k, v) ∈ m := by
  induction m with
  | nil => simp [rget] at h
  | cons p rest ih =>
    obtain ⟨k', v'⟩ := p
    by_cases hk : k' = k
    · subst hk
      simp [rget] at h
      simp [h]
    · simp [rget, hk] at h
      exact List.mem_cons_of_mem _ (ih h)

theorem getMessageId_eq (chatId : Int) (mid : Nat) :
    getMessageId chatId mid = "msgid:" ++ (toString chatId ++ "-" ++ toString mid) := by
  simp [getMessageId, String.append_assoc]

/-- A context key that starts with "ctx:" is never a message-link key. -/
theorem ctxKey_ne_msgid (t s : String) : ("ctx:" ++ t) ≠ "msgid:" ++ s := by
  intro h
  have hd := congrArg String.data h
  rw [String.data_append, String.data_append] at hd
  simp at hd

theorem asString_data (l : List Char) : (List.asString l).data = l := rfl

theorem asString_length (l : List Char) : (List.asString l).length = l.length := rfl

theorem chunkListAux_congr :
    ∀ (m n : Nat) (s : List Char), s.length ≤ m → s.length ≤ n →
      chunkListAux m s = chunkListAux n s := by
  intro m
  induction m with
  | zero =>
    intro n s hm _
    have : s = [] := by cases s <;> simp_all
    subst this
    cases n <;> rfl
  | succ m ih =>
    intro n s hm hn
    cases s with
    | nil => cases n <;> rfl
    | cons ch rest =>
      cases n with
      | zero => simp at hn
      | succ n =>
        simp only [chunkListAux]
        congr 1
        apply ih
        · simp [PART_SIZE] at hm ⊢
          omega
        · simp [PART_SIZE] at hn ⊢
          omega

/-- The defining equation of the chunking loop, free of the fuel bound. -/
theorem chunkList_eq (s : List Char) :
    chunkList s =
      if s = [] then [] else s.take PART_SIZE :: chunkList (s.drop PART_SIZE) := by
  cases s with
  | nil => rfl
  | cons ch rest =>
    rw [if_neg (by simp)]
    show chunkListAux (rest.length + 1) (ch :: rest)
      = (ch :: rest).take PART_SIZE :: chunkList ((ch :: rest).drop PART_SIZE)
    simp only [chunkListAux]
    congr 1
    apply chunkListAux_congr
    · simp only [List.length_drop, List.length_cons, PART_SIZE]
      omega
    · exact le_rfl

theorem chunkList_flatten_aux :
    ∀ (n : Nat) (l : List Char), l.length ≤ n → (chunkList l).flatten = l := by
  intro n
  induction n with
  | zero =>
    intro l hl
    have hnil : l = [] := by cases l <;> simp_all
    subst hnil
    rfl
  | succ n ih =>
    intro l hl
    by_cases h : l = []
    · subst h; rfl
    · rw [chunkList_eq, if_neg h]
      have hpos : 0 < l.length := List.length_pos.mpr h
      have hdrop : (l.drop PART_SIZE).length ≤ n := by
        simp [PART_SIZE]
        omega
      rw [List.flatten_cons, ih _ hdrop, List.take_append_drop]

theorem chunkList_flatten (l : List Char) : (chunkList l).flatten = l :=
  chunkList_flatten_aux l.length l le_rfl

theorem chunkList_length_le_aux :
    ∀ (n : Nat) (l : List Char), l.length ≤ n →
      ∀ f ∈ chunkList l, f.length ≤ PART_SIZE := by
  intro n
  induction n with
  | zero =>
    intro l hl f hf
    have hnil : l = [] := by cases l <;> simp_all
    subst hnil
    simp [chunkList, chunkListAux] at hf
  | succ n ih =>
    intro l hl f hf
    by_cases h : l = []
    · subst h; simp [chunkList, chunkListAux] at hf
    · rw [chunkList_eq, if_neg h] at hf
      rcases List.mem_cons.mp hf with hf | hf
      · subst hf
        simp [List.length_take]
      · have hpos : 0 < l.length := List.length_pos.mpr h
        have hdrop : (l.drop PART_SIZE).length ≤ n := by
          simp [PART_SIZE]
          omega
        exact ih _ hdrop f hf

/-- C3: the chunking step yields fragments of length at most PART_SIZE whose
concatenation, in order, is exactly the reply text. -/
theorem c3_chunk_complete (reply : String) :
    (∀ f ∈ chunkParts reply, f.length ≤ PART_SIZE) ∧
      String.join (chunkParts reply) = reply := by
  constructor
  · intro f hf
    obtain ⟨fl, hfl, rfl⟩ := List.mem_map.mp hf
    rw [asString_length]
    exact chunkList_length_le_aux reply.toList.length reply.toList le_rfl fl hfl
  · apply String.ext
    rw [String.join_eq]
    show ((chunkParts reply).map String.data).flatten = reply.data
    rw [chunkParts, List.map_map]
    have hmap : (String.data ∘ List.asString) = (id : List Char → List Char) := rfl
    rw [hmap, List.map_id, chunkList_flatten]
    rfl

/-- C3 witness: the chunk-completeness theorem applied at the text "hello". -/
theorem c3_chunk_complete_witness :
    (∀ f ∈ chunkParts "hello", f.length ≤ PART_SIZE) ∧
      String.join (chunkParts "hello") = "hello" :=
  c3_chunk_complete "hello"

/-- Whether processing one update lets a thrown fault escape the handler. -/
def updateFaulted (o : Oracle) (st : AppState) (botID : Int) (m : RedisMap)
    (u : Message) (c : Nat) : Bool :=
  match processMessage o st botID m u c with
  | .ok _ => false
  | .error _ => true

/-- A store whose context blob is corrupt in the dangerous way: JSON.parse
succeeds with a truthy value that has no params array. -/
def corruptBadWorld : RedisMap :=
  [("msgid:100-7", Blob.str "ctx:100-5"), ("ctx:100-5", Blob.badjson)]

/-- A store whose context blob is corrupt in the contained way: JSON.parse
throws (or yields a falsy value), so loading yields null. -/
def corruptStrWorld : RedisMap :=
  [("msgid:100-7", Blob.str "ctx:100-5"), ("ctx:100-5", Blob.str "not-a-context")]

/-- A continuation update replying to the bot message with id 7 in chat 100. -/
def msgC : Message := ⟨100, 8, some "more", some 7, some ⟨100, 7, some 999⟩⟩

/-- C9: processing the new-conversation command message with chat id 100,
message id 55 and text "/openai hello" derives the ContextId "ctx:100-55" and
persists under it exactly the turns [system primer, user "hello"]; the only
other key written is the placeholder's message link, which points at the same
ContextId. -/
theorem c9_scenario_a :
    finalStore specOracle stA 999 [] msgA 1000 =
      [("msgid:100-1000", Blob.str "ctx:100-55"),
       ("ctx:100-55", Blob.ctx ⟨[primer, ⟨.user, "hello"⟩], "gpt-4o"⟩)] := by
  decide

/-- C1 counterexample: a new conversation whose completion result "\nhi" is
successfully delivered (the placeholder edit is performed) nevertheless leaves
the stored turn sequence for its ContextId equal to [system primer,
user "hello"]: the last stored turn is user-authored and no stored turn is
assistant-authored, contradicting the claim that the stored sequence ends
with an assistant turn containing the completion result. -/
theorem c1_counterexample :
    Action.editMessageText 100 1000 "\nhi" true ∈ updateActs specOracle stA 999 [] msgA 1000 ∧
    rget (finalStore specOracle stA 999 [] msgA 1000) "ctx:100-55"
      = some (Blob.ctx ⟨[primer, ⟨.user, "hello"⟩], "gpt-4o"⟩) ∧
    ([primer, ⟨.user, "hello"⟩] : List ChatMessageParam).getLast?.map ChatMessageParam.role
      = some Role.user ∧
    ([primer, ⟨.user, "hello"⟩] : List ChatMessageParam).all
      (fun p => p.role != Role.assistant) = true := by
  decide

/-- C2 counterexample: after a new conversation in chat 100 and one
continuation (a reply to the placeholder), the reachable persisted context at
"ctx:100-55" carries the turns [system, user "hello", user "more"], whose
sequence after the initial system turn does not strictly alternate
user-authored and assistant-authored turns. -/
theorem c2_counterexample :
    rget (runUpdates stA 999 [(msgA, specOracle), (msgB, specOracle)] [] 1000) "ctx:100-55"
      = some (Blob.ctx ⟨[primer, ⟨.user, "hello"⟩, ⟨.user, "more"⟩], "gpt-4o"⟩) ∧
    strictlyAlternates [primer, ⟨.user, "hello"⟩, ⟨.user, "more"⟩] = false := by
  decide

/-- C6: behavior of a continuation on missing or corrupt context data.  A
missing link and a syntactically corrupt stored blob both terminate with the
"no context found" notice, no retry, and no store mutation.  But a corrupt
blob whose JSON.parse succeeds with a truthy non-context value makes
context.params.push throw, and the fault escapes the handler instead of
producing the notice — the code violates the claim's corruption containment. -/
theorem c6_corruption_eval :
    updateFaulted specOracle stA 999 corruptBadWorld msgC 0 = true ∧
    updateActs specOracle stA 999 corruptBadWorld msgC 0 = [] ∧
    (updateFaulted specOracle stA 999 corruptStrWorld msgC 0 = false ∧
     updateActs specOracle stA 999 corruptStrWorld msgC 0 = [noContextNotice 100 8 0] ∧
     finalStore specOracle stA 999 corruptStrWorld msgC 0 = corruptStrWorld) ∧
    (updateFaulted specOracle stA 999 [("msgid:100-9", Blob.str "")] msgC 0 = false ∧
     updateActs specOracle stA 999 [] msgC 0 = [noContextNotice 100 8 0] ∧
     finalStore specOracle stA 999 [] msgC 0 = []) := by
  decide

theorem foldl_reply_data (g : ChatCompletionChoice → String) :
    ∀ (cs : List ChatCompletionChoice) (a : String),
      (cs.foldl (fun accum elem => accum ++ "\n" ++ g elem) a).data
        = a.data ++ (cs.map (fun e => '\n' :: (g e).data)).flatten := by
  intro cs
  induction cs with
  | nil => intro a; simp
  | cons ch rest ih =>
    intro a
    simp only [List.foldl_cons, List.map_cons, List.flatten_cons]
    rw [ih, String.data_append, String.data_append]
    simp

/-- C10: the assembled reply is the fold over the response's choices,
appending a newline then the choice's interpolated content, from the empty
string; with at least one choice it begins with a newline and is never equal
to any single choice's content, and with the choices field absent the
assembled reply is undefined (none) rather than a string. -/
theorem c10_reply_assembly :
    assembleReply none = none ∧
    (∀ cs, assembleReply (some cs)
        = some (cs.foldl (fun accum elem => accum ++ "\n" ++ choiceContentText elem) "")) ∧
    (∀ cs, cs ≠ [] →
      ∃ r, assembleReply (some cs) = some r ∧ r.data.head? = some '\n' ∧
        ∀ ch ∈ cs, r ≠ choiceContentText ch) := by
  refine ⟨rfl, fun cs => rfl, fun cs hcs => ?_⟩
  refine ⟨cs.foldl (fun accum elem => accum ++ "\n" ++ choiceContentText elem) "", rfl, ?_, ?_⟩
  · rw [foldl_reply_data choiceContentText cs ""]
    cases cs with
    | nil => exact absurd rfl hcs
    | cons ch rest => simp
  · intro ch hch heq
    have hdata := congrArg String.data heq
    rw [foldl_reply_data choiceContentText cs ""] at hdata
    have hlen := congrArg List.length hdata
    rw [List.length_append, List.length_flatten, List.map_map] at hlen
    have hmem : ('\n' :: (choiceContentText ch).data).length
        ∈ cs.map (List.length ∘ fun e => '\n' :: (choiceContentText e).data) := by
      exact List.mem_map.mpr ⟨ch, hch, rfl⟩
    have hle := List.single_le_sum (l := cs.map
        (List.length ∘ fun e => '\n' :: (choiceContentText e).data))
      (fun x _ => Nat.zero_le x) _ hmem
    simp only [List.length_cons] at hle hlen
    omega

/-- C10 witness: the assembly theorem applied to a response with the single
choice content "hi". -/
theorem c10_reply_assembly_witness :
    ∃ r, assembleReply (some [⟨some ⟨some "hi"⟩⟩]) = some r ∧
      r.data.head? = some '\n' ∧
      ∀ ch ∈ ([⟨some ⟨some "hi"⟩⟩] : List ChatCompletionChoice),
        r ≠ choiceContentText ch :=
  c10_reply_assembly.2.2 [⟨some ⟨some "hi"⟩⟩] (by simp)

/-- Every store write of the delivery loop is a message link: its key is a
message key of this chat and its value is the conversation's ContextId. -/
theorem writeParts_sets (o : Oracle) (chatid : Int) (respMsgId : Nat) (cid : String) :
    ∀ (ps : List String) (i prevId c : Nat) {k : String} {v : Blob},
      Action.redisSet k v ∈ (writeParts o chatid respMsgId cid ps i prevId c).1 →
      ∃ mid, k = getMessageId chatid mid ∧ v = Blob.str cid := by
  intro ps
  induction ps with
  | nil => intro i prev c k v h; simp [writeParts] at h
  | cons p rest ih =>
    intro i prev c k v h
    rw [writeParts] at h
    by_cases hi : i = 0
    · rw [if_pos hi] at h
      by_cases hmd : o.mdFail i = true
      · rw [if_pos hmd] at h
        simp only [List.mem_cons] at h
        rcases h with h | h | h
        · exact absurd h (by simp)
        · exact absurd h (by simp)
        · exact ih _ _ _ h
      · rw [if_neg hmd] at h
        simp only [List.mem_cons] at h
        rcases h with h | h
        · exact absurd h (by simp)
        · exact ih _ _ _ h
    · rw [if_neg hi] at h
      by_cases hmd : o.mdFail i = true
      · rw [if_pos hmd] at h
        simp only [linkMessageWithContext, List.mem_cons] at h
        rcases h with h | h | h | h
        · exact absurd h (by simp)
        · exact absurd h (by simp)
        · injection h with h1 h2
          exact ⟨c, h1, h2⟩
        · exact ih _ _ _ h
      · rw [if_neg hmd] at h
        simp only [linkMessageWithContext, List.mem_cons] at h
        rcases h with h | h | h
        · exact absurd h (by simp)
        · injection h with h1 h2
          exact ⟨c, h1, h2⟩
        · exact ih _ _ _ h

/-- Shape of a doOpenAI run whose placeholder send succeeds: the placeholder
send, the context persist, the placeholder link and the provider call happen
first, in this order, and every store write after them is a message link to
the same ContextId. -/
theorem doOpenAI_shape (o : Oracle) (chatId : Int) (uid : Nat) (model : String)
    (messages : List ChatMessageParam) (cid : String) (c : Nat)
    (hpf : o.placeholderFail = false) :
    ∃ tail, (doOpenAI o chatId uid model messages cid c).1
        = Action.sendMessage chatId (placeholderText model) c (some uid) true ::
          updateContext cid ⟨messages, model⟩ ::
          linkMessageWithContext (getMessageId chatId c) cid ::
          Action.chatCompletionsCreate model messages :: tail ∧
      ∀ {k : String} {v : Blob}, Action.redisSet k v ∈ tail →
        ∃ mid, k = getMessageId chatId mid ∧ v = Blob.str cid := by
  rw [doOpenAI]
  cases hprov : o.provider model messages with
  | error e =>
    refine ⟨[internalError chatId (c + 1)], by simp [hpf, hprov], ?_⟩
    intro k v h
    simp [internalError] at h
  | ok resp =>
    cases hrep : assembleReply resp.choices with
    | none =>
      refine ⟨[internalError chatId (c + 1)], by simp [hpf, hprov, hrep], ?_⟩
      intro k v h
      simp [internalError] at h
    | some reply =>
      refine ⟨(doWriteReply o reply chatId c cid (c + 1)).1, by simp [hpf, hprov, hrep], ?_⟩
      intro k v h
      exact writeParts_sets o chatId c cid _ _ _ _ h

/-- C1 amended: whatever the provider and delivery outcome, once the
placeholder has been sent the stored context for the ContextId after the
whole update is exactly the (model, turns) pair persisted before the provider
call — it still ends with the user's turn, and no assistant turn is ever
appended. -/
theorem c1_amended (o : Oracle) (chatId : Int) (uid : Nat) (model : String)
    (messages : List ChatMessageParam) (cid : String) (m : RedisMap) (c : Nat)
    (hpf : o.placeholderFail = false)
    (hcid : ∀ s, cid ≠ "msgid:" ++ s) :
    rget (applyActions m (doOpenAI o chatId uid model messages cid c).1) cid
      = some (Blob.ctx ⟨messages, model⟩) := by
  obtain ⟨tail, heq, htail⟩ := doOpenAI_shape o chatId uid model messages cid c hpf
  rw [heq]
  have hstep : applyActions m
      (Action.sendMessage chatId (placeholderText model) c (some uid) true ::
        updateContext cid ⟨messages, model⟩ ::
        linkMessageWithContext (getMessageId chatId c) cid ::
        Action.chatCompletionsCreate model messages :: tail)
      = applyActions (rset m cid (Blob.ctx ⟨messages, model⟩))
          (linkMessageWithContext (getMessageId chatId c) cid ::
            Action.chatCompletionsCreate model messages :: tail) := rfl
  rw [hstep]
  rw [rget_applyActions_of_ne]
  · exact rget_rset_self _ _ _
  · intro k v hm
    rcases List.mem_cons.mp hm with hm | hm
    · rw [linkMessageWithContext] at hm
      injection hm with h1 h2
      rw [h1, getMessageId_eq]
      intro hk2
      exact hcid _ hk2.symm
    · rcases List.mem_cons.mp hm with hm | hm
      · exact absurd hm (by simp)
      · obtain ⟨mid, hk, _⟩ := htail hm
        rw [hk, getMessageId_eq]
        intro hk2
        exact hcid _ hk2.symm

/-- C1 amended witness: the amended theorem applied to the Scenario A inputs
from the empty store. -/
theorem c1_amended_witness :
    rget (applyActions []
        (doOpenAI specOracle 100 55 "gpt-4o" [primer, ⟨.user, "hello"⟩] "ctx:100-55" 1000).1)
      "ctx:100-55"
      = some (Blob.ctx ⟨[primer, ⟨.user, "hello"⟩], "gpt-4o"⟩) :=
  c1_amended specOracle 100 55 "gpt-4o" [primer, ⟨.user, "hello"⟩] "ctx:100-55" [] 1000
    rfl (fun s h => ctxKey_ne_msgid "100-55" s (by exact h))

/-- C4: once the placeholder send succeeds, the placeholder message is sent,
the (model, turns-so-far) context is persisted, and the placeholder is linked
to the ContextId, in this order, all before the provider call; and for every
prefix of the update's action sequence (a crash point, including crashes
during or after the provider call), if the placeholder's MessageLink is
present in the replayed store then the ContextId's context is present as
well, so the link never resolves to a nonexistent context.  It is assumed
that the placeholder's fresh message id is not yet linked in the starting
store and that the ContextId is not itself a message key. -/
theorem c4_placeholder_order (o : Oracle) (chatId : Int) (uid : Nat) (model : String)
    (messages : List ChatMessageParam) (cid : String) (m : RedisMap) (c : Nat)
    (hpf : o.placeholderFail = false)
    (hcid : ∀ s, cid ≠ "msgid:" ++ s)
    (hfresh : rget m (getMessageId chatId c) = none) :
    (∃ rest, (doOpenAI o chatId uid model messages cid c).1
        = Action.sendMessage chatId (placeholderText model) c (some uid) true ::
          updateContext cid ⟨messages, model⟩ ::
          linkMessageWithContext (getMessageId chatId c) cid ::
          Action.chatCompletionsCreate model messages :: rest) ∧
    ∀ p rest2, (doOpenAI o chatId uid model messages cid c).1 = p ++ rest2 →
      rget (applyActions m p) (getMessageId chatId c) = some (Blob.str cid) →
      rget (applyActions m p) cid = some (Blob.ctx ⟨messages, model⟩) := by
  obtain ⟨tail, heq, htail⟩ := doOpenAI_shape o chatId uid model messages cid c hpf
  refine ⟨⟨tail, heq⟩, ?_⟩
  intro p rest2 hsplit hlink
  rw [heq] at hsplit
  cases p with
  | nil =>
    simp only [applyActions] at hlink
    rw [hfresh] at hlink
    exact absurd hlink (by simp)
  | cons x0 p1 =>
    rw [List.cons_append] at hsplit
    injection hsplit with hx0 hsplit
    cases p1 with
    | nil =>
      subst hx0
      simp only [applyActions] at hlink
      rw [hfresh] at hlink
      exact absurd hlink (by simp)
    | cons x1 p2 =>
      rw [List.cons_append] at hsplit
      injection hsplit with hx1 hsplit
      subst hx0
      subst hx1
      have hred : applyActions m
          (Action.sendMessage chatId (placeholderText model) c (some uid) true ::
            updateContext cid ⟨messages, model⟩ :: p2)
          = applyActions (rset m cid (Blob.ctx ⟨messages, model⟩)) p2 := rfl
      rw [hred]
      rw [rget_applyActions_of_ne]
      · exact rget_rset_self _ _ _
      · intro k v hm
        have hm2 : Action.redisSet k v ∈ p2 ++ rest2 := List.mem_append_left _ hm
        rw [← hsplit] at hm2
        rcases List.mem_cons.mp hm2 with h2 | h2
        · rw [linkMessageWithContext] at h2
          injection h2 with h1 h2v
          rw [h1, getMessageId_eq]
          intro hk
          exact hcid _ hk.symm
        · rcases List.mem_cons.mp h2 with h2 | h2
          · exact absurd h2 (by simp)
          · obtain ⟨mid, hk, _⟩ := htail h2
            rw [hk, getMessageId_eq]
            intro hk2
            exact hcid _ hk2.symm

/-- C4 witness: the ordering and crash-safety theorem applied to the
Scenario A inputs from the empty store. -/
theorem c4_placeholder_order_witness :
    (∃ rest, (doOpenAI specOracle 100 55 "gpt-4o" [primer, ⟨.user, "hello"⟩]
          "ctx:100-55" 1000).1
        = Action.sendMessage 100 (placeholderText "gpt-4o") 1000 (some 55) true ::
          updateContext "ctx:100-55" ⟨[primer, ⟨.user, "hello"⟩], "gpt-4o"⟩ ::
          linkMessageWithContext (getMessageId 100 1000) "ctx:100-55" ::
          Action.chatCompletionsCreate "gpt-4o" [primer, ⟨.user, "hello"⟩] :: rest) ∧
    ∀ p rest2, (doOpenAI specOracle 100 55 "gpt-4o" [primer, ⟨.user, "hello"⟩]
          "ctx:100-55" 1000).1 = p ++ rest2 →
      rget (applyActions [] p) (getMessageId 100 1000) = some (Blob.str "ctx:100-55") →
      rget (applyActions [] p) "ctx:100-55"
        = some (Blob.ctx ⟨[primer, ⟨.user, "hello"⟩], "gpt-4o"⟩) :=
  c4_placeholder_order specOracle 100 55 "gpt-4o" [primer, ⟨.user, "hello"⟩]
    "ctx:100-55" [] 1000 rfl (fun s h => ctxKey_ne_msgid "100-55" s (by exact h)) rfl

/-- Every reply-send of the delivery loop (a fragment delivery, as opposed to
a fallback notice, which is not sent as a reply) is followed by a link of its
fresh message id to the ContextId in the same action list. -/
theorem writeParts_send_linked (o : Oracle) (chatid : Int) (respMsgId : Nat) (cid : String) :
    ∀ (ps : List String) (i prevId c : Nat) {t : String} {mid rt : Nat} {md : Bool},
      Action.sendMessage chatid t mid (some rt) md
          ∈ (writeParts o chatid respMsgId cid ps i prevId c).1 →
      linkMessageWithContext (getMessageId chatid mid) cid
          ∈ (writeParts o chatid respMsgId cid ps i prevId c).1 := by
  intro ps
  induction ps with
  | nil => intro i prev c t mid rt md h; simp [writeParts] at h
  | cons p rest ih =>
    intro i prev c t mid rt md h
    rw [writeParts] at h ⊢
    by_cases hi : i = 0
    · rw [if_pos hi] at h ⊢
      by_cases hmd : o.mdFail i = true
      · rw [if_pos hmd] at h ⊢
        rcases List.mem_cons.mp h with h | h
        · exact absurd h (by simp)
        · rcases List.mem_cons.mp h with h | h
          · exact absurd h (by simp)
          · exact List.mem_cons_of_mem _ (List.mem_cons_of_mem _ (ih _ _ _ h))
      · rw [if_neg hmd] at h ⊢
        rcases List.mem_cons.mp h with h | h
        · exact absurd h (by simp)
        · exact List.mem_cons_of_mem _ (ih _ _ _ h)
    · rw [if_neg hi] at h ⊢
      by_cases hmd : o.mdFail i = true
      · rw [if_pos hmd] at h ⊢
        rcases List.mem_cons.mp h with h | h
        · injection h with h1 h2 h3 h4 h5
          rw [h3]
          exact List.mem_cons_of_mem _ (List.mem_cons_of_mem _ (List.mem_cons_self _ _))
        · rcases List.mem_cons.mp h with h | h
          · exact absurd h (by simp)
          · rcases List.mem_cons.mp h with h | h
            · exact absurd h (by simp [linkMessageWithContext])
            · exact List.mem_cons_of_mem _ (List.mem_cons_of_mem _
                (List.mem_cons_of_mem _ (ih _ _ _ h)))
      · rw [if_neg hmd] at h ⊢
        rcases List.mem_cons.mp h with h | h
        · injection h with h1 h2 h3 h4 h5
          rw [h3]
          exact List.mem_cons_of_mem _ (List.mem_cons_self _ _)
        · rcases List.mem_cons.mp h with h | h
          · exact absurd h (by simp [linkMessageWithContext])
          · exact List.mem_cons_of_mem _ (List.mem_cons_of_mem _ (ih _ _ _ h))

/-- Every edit of the delivery loop targets the placeholder message. -/
theorem writeParts_edit_resp (o : Oracle) (chatid : Int) (respMsgId : Nat) (cid : String) :
    ∀ (ps : List String) (i prevId c : Nat) {mid : Nat} {t : String} {md : Bool},
      Action.editMessageText chatid mid t md
          ∈ (writeParts o chatid respMsgId cid ps i prevId c).1 →
      mid = respMsgId := by
  intro ps
  induction ps with
  | nil => intro i prev c mid t md h; simp [writeParts] at h
  | cons p rest ih =>
    intro i prev c mid t md h
    rw [writeParts] at h
    by_cases hi : i = 0
    · rw [if_pos hi] at h
      by_cases hmd : o.mdFail i = true
      · rw [if_pos hmd] at h
        rcases List.mem_cons.mp h with h | h
        · rw [Action.editMessageText.injEq] at h
          exact h.2.1
        · rcases List.mem_cons.mp h with h | h
          · exact absurd h (by simp)
          · exact ih _ _ _ h
      · rw [if_neg hmd] at h
        rcases List.mem_cons.mp h with h | h
        · rw [Action.editMessageText.injEq] at h
          exact h.2.1
        · exact ih _ _ _ h
    · rw [if_neg hi] at h
      by_cases hmd : o.mdFail i = true
      · rw [if_pos hmd] at h
        rcases List.mem_cons.mp h with h | h
        · exact absurd h (by simp)
        · rcases List.mem_cons.mp h with h | h
          · exact absurd h (by simp)
          · rcases List.mem_cons.mp h with h | h
            · exact absurd h (by simp [linkMessageWithContext])
            · exact ih _ _ _ h
      · rw [if_neg hmd] at h
        rcases List.mem_cons.mp h with h | h
        · exact absurd h (by simp)
        · rcases List.mem_cons.mp h with h | h
          · exact absurd h (by simp [linkMessageWithContext])
          · exact ih _ _ _ h

/-- C8: in a doOpenAI run, every delivered fragment message is linked to the
conversation's ContextId: every message sent as a reply (the placeholder and
every fragment 1..n, whether delivered in Markdown or as the plain-text
fallback — the notices are not replies) and every edited message (fragment 0,
delivered by editing the placeholder) has a linkMessageWithContext action for
its message id in the same update, so a reply to any delivered fragment
resolves to the conversation's context. -/
theorem c8_fragment_links (o : Oracle) (chatId : Int) (uid : Nat) (model : String)
    (messages : List ChatMessageParam) (cid : String) (c : Nat) :
    (∀ (t : String) (mid rt : Nat) (md : Bool),
      Action.sendMessage chatId t mid (some rt) md
          ∈ (doOpenAI o chatId uid model messages cid c).1 →
      linkMessageWithContext (getMessageId chatId mid) cid
          ∈ (doOpenAI o chatId uid model messages cid c).1) ∧
    (∀ (mid : Nat) (t : String) (md : Bool),
      Action.editMessageText chatId mid t md
          ∈ (doOpenAI o chatId uid model messages cid c).1 →
      linkMessageWithContext (getMessageId chatId mid) cid
          ∈ (doOpenAI o chatId uid model messages cid c).1) := by
  have hlinkpos : ∀ (wtail : List Action),
      linkMessageWithContext (getMessageId chatId c) cid
        ∈ Action.sendMessage chatId (placeholderText model) c (some uid) true ::
          updateContext cid ⟨messages, model⟩ ::
          linkMessageWithContext (getMessageId chatId c) cid ::
          Action.chatCompletionsCreate model messages :: wtail := by
    intro wtail
    exact List.mem_cons_of_mem _ (List.mem_cons_of_mem _ (List.mem_cons_self _ _))
  have core : ∀ (wtail : List Action),
      (∀ (t : String) (mid rt : Nat) (md : Bool),
        Action.sendMessage chatId t mid (some rt) md ∈ wtail →
        linkMessageWithContext (getMessageId chatId mid) cid ∈ wtail) →
      (∀ (mid : Nat) (t : String) (md : Bool),
        Action.editMessageText chatId mid t md ∈ wtail → mid = c) →
      ∀ (acts : List Action),
      acts = Action.sendMessage chatId (placeholderText model) c (some uid) true ::
          updateContext cid ⟨messages, model⟩ ::
          linkMessageWithContext (getMessageId chatId c) cid ::
          Action.chatCompletionsCreate model messages :: wtail →
      (∀ (t : String) (mid rt : Nat) (md : Bool),
        Action.sendMessage chatId t mid (some rt) md ∈ acts →
        linkMessageWithContext (getMessageId chatId mid) cid ∈ acts) ∧
      (∀ (mid : Nat) (t : String) (md : Bool),
        Action.editMessageText chatId mid t md ∈ acts →
        linkMessageWithContext (getMessageId chatId mid) cid ∈ acts) := by
    intro wtail hwsend hwedit acts hacts
    subst hacts
    constructor
    · intro t mid rt md h
      rcases List.mem_cons.mp h with h | h
      · rw [Action.sendMessage.injEq] at h
        rw [h.2.2.1]
        exact hlinkpos wtail
      · rcases List.mem_cons.mp h with h | h
        · exact absurd h (by simp [updateContext])
        · rcases List.mem_cons.mp h with h | h
          · exact absurd h (by simp [linkMessageWithContext])
          · rcases List.mem_cons.mp h with h | h
            · exact absurd h (by simp)
            · have := hwsend t mid rt md h
              exact List.mem_cons_of_mem _ (List.mem_cons_of_mem _
                (List.mem_cons_of_mem _ (List.mem_cons_of_mem _ this)))
    · intro mid t md h
      rcases List.mem_cons.mp h with h | h
      · exact absurd h (by simp)
      · rcases List.mem_cons.mp h with h | h
        · exact absurd h (by simp [updateContext])
        · rcases List.mem_cons.mp h with h | h
          · exact absurd h (by simp [linkMessageWithContext])
          · rcases List.mem_cons.mp h with h | h
            · exact absurd h (by simp)
            · rw [hwedit mid t md h]
              exact hlinkpos wtail
  cases hpf : o.placeholderFail with
  | true =>
    constructor
    · intro t mid rt md h
      rw [doOpenAI, if_pos hpf] at h
      simp [internalError] at h
    · intro mid t md h
      rw [doOpenAI, if_pos hpf] at h
      simp [internalError] at h
  | false =>
    cases hprov : o.provider model messages with
    | error e =>
      refine core [internalError chatId (c + 1)] ?_ ?_ _ (by simp [doOpenAI, hpf, hprov])
      · intro t mid rt md h
        exact absurd (List.mem_singleton.mp h) (by simp [internalError])
      · intro mid t md h
        exact absurd (List.mem_singleton.mp h) (by simp [internalError])
    | ok resp =>
      cases hrep : assembleReply resp.choices with
      | none =>
        refine core [internalError chatId (c + 1)] ?_ ?_ _ (by simp [doOpenAI, hpf, hprov, hrep])
        · intro t mid rt md h
          exact absurd (List.mem_singleton.mp h) (by simp [internalError])
        · intro mid t md h
          exact absurd (List.mem_singleton.mp h) (by simp [internalError])
      | some reply =>
        refine core (doWriteReply o reply chatId c cid (c + 1)).1 ?_ ?_ _
          (by simp [doOpenAI, hpf, hprov, hrep])
        · intro t mid rt md h
          exact writeParts_send_linked o chatId c cid _ _ _ _ h
        · intro mid t md h
          exact writeParts_edit_resp o chatId c cid _ _ _ _ h

/-- C8 witness: in the Scenario A run, the placeholder message (sent as a
reply to the user's message) is linked to the ContextId. -/
theorem c8_fragment_links_witness :
    linkMessageWithContext (getMessageId 100 1000) "ctx:100-55"
      ∈ (doOpenAI specOracle 100 55 "gpt-4o" [primer, ⟨.user, "hello"⟩] "ctx:100-55" 1000).1 :=
  (c8_fragment_links specOracle 100 55 "gpt-4o" [primer, ⟨.user, "hello"⟩] "ctx:100-55" 1000).1
    (placeholderText "gpt-4o") 1000 55 true (by decide)

/-- A delivery of fragment text txt in render mode md: either the placeholder
edit or a send declared as a reply to a previous message. -/
def deliveredAction (chatid : Int) (respMsgId : Nat) (txt : String) (md : Bool)
    (a : Action) : Prop :=
  a = Action.editMessageText chatid respMsgId txt md ∨
    ∃ mid prev, a = Action.sendMessage chatid txt mid (some prev) md

theorem exists_mem_cons_of {α : Type} (x : α) (l : List α) (P : α → Prop)
    (h : ∃ a ∈ l, P a) : ∃ a ∈ x :: l, P a := by
  obtain ⟨a, ha, hp⟩ := h
  exact ⟨a, List.mem_cons_of_mem _ ha, hp⟩

/-- Coverage of the delivery loop: every remaining fragment is delivered — in
plain text together with a fallback notice when its Markdown rendering fails,
in Markdown otherwise — regardless of the outcomes of the other fragments. -/
theorem writeParts_covers (o : Oracle) (chatid : Int) (respMsgId : Nat) (cid : String) :
    ∀ (ps : List String) (i0 prevId c : Nat) (k : Nat) (hk : k < ps.length),
      (o.mdFail (i0 + k) = true →
        (∃ a ∈ (writeParts o chatid respMsgId cid ps i0 prevId c).1,
            deliveredAction chatid respMsgId (ps.get ⟨k, hk⟩) false a) ∧
        ∃ nid, Action.sendMessage chatid (fallbackNotice (o.errMsg (i0 + k))) nid none false
            ∈ (writeParts o chatid respMsgId cid ps i0 prevId c).1) ∧
      (o.mdFail (i0 + k) = false →
        ∃ a ∈ (writeParts o chatid respMsgId cid ps i0 prevId c).1,
          deliveredAction chatid respMsgId (ps.get ⟨k, hk⟩) true a) := by
  intro ps
  induction ps with
  | nil => intro i0 prev c k hk; simp at hk
  | cons p rest ih =>
    intro i0 prev c k hk
    cases k with
    | zero =>
      rw [writeParts]
      by_cases hi : i0 = 0
      · rw [if_pos hi]
        by_cases hmd : o.mdFail i0 = true
        · rw [if_pos hmd]
          constructor
          · intro _
            constructor
            · exact ⟨_, List.mem_cons_self _ _, Or.inl rfl⟩
            · exact ⟨c, by
                rw [Nat.add_zero]
                exact List.mem_cons_of_mem _ (List.mem_cons_self _ _)⟩
          · intro hfalse
            rw [Nat.add_zero] at hfalse
            rw [hfalse] at hmd
            exact absurd hmd (by simp)
        · rw [if_neg hmd]
          constructor
          · intro htrue
            rw [Nat.add_zero] at htrue
            exact absurd htrue hmd
          · intro _
            exact ⟨_, List.mem_cons_self _ _, Or.inl rfl⟩
      · rw [if_neg hi]
        by_cases hmd : o.mdFail i0 = true
        · rw [if_pos hmd]
          constructor
          · intro _
            constructor
            · exact ⟨_, List.mem_cons_self _ _, Or.inr ⟨c, prev, rfl⟩⟩
            · exact ⟨c + 1, by
                rw [Nat.add_zero]
                exact List.mem_cons_of_mem _ (List.mem_cons_self _ _)⟩
          · intro hfalse
            rw [Nat.add_zero] at hfalse
            rw [hfalse] at hmd
            exact absurd hmd (by simp)
        · rw [if_neg hmd]
          constructor
          · intro htrue
            rw [Nat.add_zero] at htrue
            exact absurd htrue hmd
          · intro _
            exact ⟨_, List.mem_cons_self _ _, Or.inr ⟨c, prev, rfl⟩⟩
    | succ k =>
      have hk2 : k < rest.length := by simp at hk; omega
      have hidx : i0 + (k + 1) = (i0 + 1) + k := by omega
      have hget : (p :: rest).get ⟨k + 1, hk⟩ = rest.get ⟨k, hk2⟩ := rfl
      rw [hidx, hget, writeParts]
      by_cases hi : i0 = 0
      · rw [if_pos hi]
        by_cases hmd : o.mdFail i0 = true
        · rw [if_pos hmd]
          obtain ⟨h1, h2⟩ := ih (i0 + 1) prev (c + 1) k hk2
          constructor
          · intro htrue
            obtain ⟨hdel, nid, hnid⟩ := h1 htrue
            refine ⟨exists_mem_cons_of _ _ _ (exists_mem_cons_of _ _ _ hdel), nid, ?_⟩
            exact List.mem_cons_of_mem _ (List.mem_cons_of_mem _ hnid)
          · intro hfalse
            exact exists_mem_cons_of _ _ _ (exists_mem_cons_of _ _ _ (h2 hfalse))
        · rw [if_neg hmd]
          obtain ⟨h1, h2⟩ := ih (i0 + 1) prev c k hk2
          constructor
          · intro htrue
            obtain ⟨hdel, nid, hnid⟩ := h1 htrue
            exact ⟨exists_mem_cons_of _ _ _ hdel, nid, List.mem_cons_of_mem _ hnid⟩
          · intro hfalse
            exact exists_mem_cons_of _ _ _ (h2 hfalse)
      · rw [if_neg hi]
        by_cases hmd : o.mdFail i0 = true
        · rw [if_pos hmd]
          obtain ⟨h1, h2⟩ := ih (i0 + 1) c (c + 2) k hk2
          constructor
          · intro htrue
            obtain ⟨hdel, nid, hnid⟩ := h1 htrue
            refine ⟨exists_mem_cons_of _ _ _ (exists_mem_cons_of _ _ _
              (exists_mem_cons_of _ _ _ hdel)), nid, ?_⟩
            exact List.mem_cons_of_mem _ (List.mem_cons_of_mem _ (List.mem_cons_of_mem _ hnid))
          · intro hfalse
            exact exists_mem_cons_of _ _ _ (exists_mem_cons_of _ _ _
              (exists_mem_cons_of _ _ _ (h2 hfalse)))
        · rw [if_neg hmd]
          obtain ⟨h1, h2⟩ := ih (i0 + 1) c (c + 1) k hk2
          constructor
          · intro htrue
            obtain ⟨hdel, nid, hnid⟩ := h1 htrue
            refine ⟨exists_mem_cons_of _ _ _ (exists_mem_cons_of _ _ _ hdel), nid, ?_⟩
            exact List.mem_cons_of_mem _ (List.mem_cons_of_mem _ hnid)
          · intro hfalse
            exact exists_mem_cons_of _ _ _ (exists_mem_cons_of _ _ _ (h2 hfalse))

/-- C7: in a doWriteReply run, every fragment whose Markdown rendering fails
is delivered again as plain text (the same fragment text, by the placeholder
edit for fragment 0, as a reply-send otherwise) and an inline fallback notice
is sent; every fragment whose rendering succeeds is delivered in Markdown —
so delivery of the remaining fragments continues after any fallback. -/
theorem c7_markdown_fallback (o : Oracle) (reply : String) (chatid : Int)
    (respMsgId : Nat) (cid : String) (c : Nat) (k : Nat)
    (hk : k < (chunkParts reply).length) :
    (o.mdFail k = true →
      (∃ a ∈ (doWriteReply o reply chatid respMsgId cid c).1,
          deliveredAction chatid respMsgId ((chunkParts reply).get ⟨k, hk⟩) false a) ∧
      ∃ nid, Action.sendMessage chatid (fallbackNotice (o.errMsg k)) nid none false
          ∈ (doWriteReply o reply chatid respMsgId cid c).1) ∧
    (o.mdFail k = false →
      ∃ a ∈ (doWriteReply o reply chatid respMsgId cid c).1,
        deliveredAction chatid respMsgId ((chunkParts reply).get ⟨k, hk⟩) true a) := by
  have h := writeParts_covers o chatid respMsgId cid (chunkParts reply) 0 respMsgId c k hk
  rw [Nat.zero_add] at h
  exact h

/-- Oracle for the C7 witness: Markdown rendering fails exactly on fragment 1. -/
def o7 : Oracle := ⟨fun _ _ => .ok ⟨some []⟩, fun i => i == 1, fun _ => "bad md", false⟩

/-- A 3000-character reply, which chunks into two fragments. -/
def w7Reply : String := List.asString (List.replicate 3000 'x')

theorem w7Reply_toList_length : w7Reply.toList.length = 3000 := by
  show (List.replicate 3000 'x').length = 3000
  exact List.length_replicate 3000 'x'

/-- The 3000-character reply has more than one fragment. -/
theorem w7Reply_two_frags : 1 < (chunkParts w7Reply).length := by
  have hl := w7Reply_toList_length
  have h1 : w7Reply.toList ≠ [] := by
    intro h
    rw [h] at hl
    exact absurd hl (by simp)
  have h2 : w7Reply.toList.drop PART_SIZE ≠ [] := by
    have hd : (w7Reply.toList.drop PART_SIZE).length = 952 := by
      rw [List.length_drop, hl]
      simp [PART_SIZE]
    intro h
    rw [h] at hd
    exact absurd hd (by simp)
  rw [chunkParts, List.length_map, chunkList_eq, if_neg h1, List.length_cons,
    chunkList_eq, if_neg h2, List.length_cons]
  omega

/-- C7 witness: the fallback theorem applied to a two-fragment reply whose
second fragment fails to render: that fragment is delivered as plain text and
the fallback notice is sent. -/
theorem c7_markdown_fallback_witness :
    (∃ a ∈ (doWriteReply o7 w7Reply 100 500 "c7ctx" 501).1,
        deliveredAction 100 500 ((chunkParts w7Reply).get ⟨1, w7Reply_two_frags⟩) false a) ∧
    ∃ nid, Action.sendMessage 100 (fallbackNotice (o7.errMsg 1)) nid none false
        ∈ (doWriteReply o7 w7Reply 100 500 "c7ctx" 501).1 :=
  (c7_markdown_fallback o7 w7Reply 100 500 "c7ctx" 501 1 w7Reply_two_frags).1 rfl

/-- C5: for an update whose assembled completion result has exactly 5000
characters and whose rendering never fails, chunking yields exactly three
fragments of sizes 2048, 2048 and 904 whose concatenation is the reply;
fragment 0 is delivered by editing the placeholder (message id 0) in place,
fragments 1 and 2 are new messages each sent as a reply to the immediately
preceding delivered fragment, and the three delivered messages' ids all
resolve through the store to the same ContextId. -/
theorem c5_scenario_c (o : Oracle) (model : String) (messages : List ChatMessageParam)
    (resp : ChatCompletionResponse) (reply : String)
    (hpf : o.placeholderFail = false)
    (hmd : ∀ i, o.mdFail i = false)
    (hprov : o.provider model messages = .ok resp)
    (hrep : assembleReply resp.choices = some reply)
    (hlen : reply.length = 5000) :
    ∃ p0 p1 p2,
      chunkParts reply = [p0, p1, p2] ∧
      p0.length = 2048 ∧ p1.length = 2048 ∧ p2.length = 904 ∧
      p0 ++ p1 ++ p2 = reply ∧
      (doOpenAI o 100 55 model messages "ctx:100-55" 0).1 =
        [Action.sendMessage 100 (placeholderText model) 0 (some 55) true,
         updateContext "ctx:100-55" ⟨messages, model⟩,
         linkMessageWithContext (getMessageId 100 0) "ctx:100-55",
         Action.chatCompletionsCreate model messages,
         Action.editMessageText 100 0 p0 true,
         Action.sendMessage 100 p1 1 (some 0) true,
         linkMessageWithContext (getMessageId 100 1) "ctx:100-55",
         Action.sendMessage 100 p2 2 (some 1) true,
         linkMessageWithContext (getMessageId 100 2) "ctx:100-55"] ∧
      rget (applyActions [] (doOpenAI o 100 55 model messages "ctx:100-55" 0).1)
          (getMessageId 100 0) = some (Blob.str "ctx:100-55") ∧
      rget (applyActions [] (doOpenAI o 100 55 model messages "ctx:100-55" 0).1)
          (getMessageId 100 1) = some (Blob.str "ctx:100-55") ∧
      rget (applyActions [] (doOpenAI o 100 55 model messages "ctx:100-55" 0).1)
          (getMessageId 100 2) = some (Blob.str "ctx:100-55") := by
  have hl : reply.toList.length = 5000 := hlen
  have h1 : reply.toList ≠ [] := by
    intro h
    rw [h] at hl
    simp at hl
  have hd1 : (reply.toList.drop PART_SIZE).length = 2952 := by
    rw [List.length_drop, hl]
    norm_num [PART_SIZE]
  have h2 : reply.toList.drop PART_SIZE ≠ [] := by
    intro h
    rw [h] at hd1
    simp at hd1
  have hd2 : ((reply.toList.drop PART_SIZE).drop PART_SIZE).length = 904 := by
    rw [List.length_drop, hd1]
    norm_num [PART_SIZE]
  have h3 : (reply.toList.drop PART_SIZE).drop PART_SIZE ≠ [] := by
    intro h
    rw [h] at hd2
    simp at hd2
  have hd3 : ((reply.toList.drop PART_SIZE).drop PART_SIZE).drop PART_SIZE = [] := by
    apply List.eq_nil_of_length_eq_zero
    rw [List.length_drop, hd2]
    norm_num [PART_SIZE]
  have htake3 : ((reply.toList.drop PART_SIZE).drop PART_SIZE).take PART_SIZE
      = (reply.toList.drop PART_SIZE).drop PART_SIZE := by
    apply List.take_of_length_le
    rw [hd2]
    norm_num [PART_SIZE]
  have hchunk : chunkList reply.toList =
      [reply.toList.take PART_SIZE,
       (reply.toList.drop PART_SIZE).take PART_SIZE,
       (reply.toList.drop PART_SIZE).drop PART_SIZE] := by
    rw [chunkList_eq, if_neg h1, chunkList_eq, if_neg h2, chunkList_eq, if_neg h3,
      htake3, hd3]
    rfl
  have hcp : chunkParts reply =
      [List.asString (reply.toList.take PART_SIZE),
       List.asString ((reply.toList.drop PART_SIZE).take PART_SIZE),
       List.asString ((reply.toList.drop PART_SIZE).drop PART_SIZE)] := by
    rw [chunkParts, hchunk]
    rfl
  have hacts : (doOpenAI o 100 55 model messages "ctx:100-55" 0).1 =
      [Action.sendMessage 100 (placeholderText model) 0 (some 55) true,
       updateContext "ctx:100-55" ⟨messages, model⟩,
       linkMessageWithContext (getMessageId 100 0) "ctx:100-55",
       Action.chatCompletionsCreate model messages,
       Action.editMessageText 100 0 (List.asString (reply.toList.take PART_SIZE)) true,
       Action.sendMessage 100
         (List.asString ((reply.toList.drop PART_SIZE).take PART_SIZE)) 1 (some 0) true,
       linkMessageWithContext (getMessageId 100 1) "ctx:100-55",
       Action.sendMessage 100
         (List.asString ((reply.toList.drop PART_SIZE).drop PART_SIZE)) 2 (some 1) true,
       linkMessageWithContext (getMessageId 100 2) "ctx:100-55"] := by
    simp [doOpenAI, hpf, hprov, hrep, doWriteReply, hcp, writeParts, hmd]
  refine ⟨_, _, _, hcp, ?_, ?_, ?_, ?_, hacts, ?_, ?_, ?_⟩
  · rw [asString_length, List.length_take, hl]
    norm_num [PART_SIZE]
  · rw [asString_length, List.length_take, hd1]
    norm_num [PART_SIZE]
  · rw [asString_length, hd2]
  · apply String.ext
    rw [String.data_append, String.data_append, asString_data, asString_data,
      asString_data, List.append_assoc, List.take_append_drop, List.take_append_drop]
    rfl
  · rw [hacts]
    show rget (rset (rset (rset (rset []
        "ctx:100-55" (Blob.ctx ⟨messages, model⟩))
        (getMessageId 100 0) (Blob.str "ctx:100-55"))
        (getMessageId 100 1) (Blob.str "ctx:100-55"))
        (getMessageId 100 2) (Blob.str "ctx:100-55"))
      (getMessageId 100 0) = some (Blob.str "ctx:100-55")
    rw [rget_rset_ne _ _ _ _ (by decide), rget_rset_ne _ _ _ _ (by decide)]
    exact rget_rset_self _ _ _
  · rw [hacts]
    show rget (rset (rset (rset (rset []
        "ctx:100-55" (Blob.ctx ⟨messages, model⟩))
        (getMessageId 100 0) (Blob.str "ctx:100-55"))
        (getMessageId 100 1) (Blob.str "ctx:100-55"))
        (getMessageId 100 2) (Blob.str "ctx:100-55"))
      (getMessageId 100 1) = some (Blob.str "ctx:100-55")
    rw [rget_rset_ne _ _ _ _ (by decide)]
    exact rget_rset_self _ _ _
  · rw [hacts]
    show rget (rset (rset (rset (rset []
        "ctx:100-55" (Blob.ctx ⟨messages, model⟩))
        (getMessageId 100 0) (Blob.str "ctx:100-55"))
        (getMessageId 100 1) (Blob.str "ctx:100-55"))
        (getMessageId 100 2) (Blob.str "ctx:100-55"))
      (getMessageId 100 2) = some (Blob.str "ctx:100-55")
    exact rget_rset_self _ _ _

/-- A 4999-character completion content for the C5 witness. -/
def c5Content : String := List.asString (List.replicate 4999 'a')

/-- The provider response holding that single choice. -/
def c5Resp : ChatCompletionResponse := ⟨some [⟨some ⟨some c5Content⟩⟩]⟩

/-- Oracle for the C5 witness: provider succeeds with c5Resp, rendering never
fails. -/
def c5Oracle : Oracle := ⟨fun _ _ => .ok c5Resp, fun _ => false, fun _ => "e", false⟩

/-- The assembled reply for that response: a newline followed by the content,
5000 characters in all. -/
def c5Reply : String := "" ++ "\n" ++ c5Content

theorem c5Reply_length : c5Reply.length = 5000 := by
  show ("" ++ "\n" ++ c5Content).length = 5000
  rw [String.length_append, String.length_append]
  have h : c5Content.length = 4999 := by
    show (List.replicate 4999 'a').length = 4999
    exact List.length_replicate 4999 'a'
  rw [h]
  rfl

/-- C5 witness: the Scenario C theorem applied to a concrete provider response
whose assembled reply has exactly 5000 characters. -/
theorem c5_scenario_c_witness :
    ∃ p0 p1 p2,
      chunkParts c5Reply = [p0, p1, p2] ∧
      p0.length = 2048 ∧ p1.length = 2048 ∧ p2.length = 904 ∧
      p0 ++ p1 ++ p2 = c5Reply ∧
      (doOpenAI c5Oracle 100 55 "gpt-4o" [primer, ⟨.user, "hello"⟩] "ctx:100-55" 0).1 =
        [Action.sendMessage 100 (placeholderText "gpt-4o") 0 (some 55) true,
         updateContext "ctx:100-55" ⟨[primer, ⟨.user, "hello"⟩], "gpt-4o"⟩,
         linkMessageWithContext (getMessageId 100 0) "ctx:100-55",
         Action.chatCompletionsCreate "gpt-4o" [primer, ⟨.user, "hello"⟩],
         Action.editMessageText 100 0 p0 true,
         Action.sendMessage 100 p1 1 (some 0) true,
         linkMessageWithContext (getMessageId 100 1) "ctx:100-55",
         Action.sendMessage 100 p2 2 (some 1) true,
         linkMessageWithContext (getMessageId 100 2) "ctx:100-55"] ∧
      rget (applyActions []
          (doOpenAI c5Oracle 100 55 "gpt-4o" [primer, ⟨.user, "hello"⟩] "ctx:100-55" 0).1)
          (getMessageId 100 0) = some (Blob.str "ctx:100-55") ∧
      rget (applyActions []
          (doOpenAI c5Oracle 100 55 "gpt-4o" [primer, ⟨.user, "hello"⟩] "ctx:100-55" 0).1)
          (getMessageId 100 1) = some (Blob.str "ctx:100-55") ∧
      rget (applyActions []
          (doOpenAI c5Oracle 100 55 "gpt-4o" [primer, ⟨.user, "hello"⟩] "ctx:100-55" 0).1)
          (getMessageId 100 2) = some (Blob.str "ctx:100-55") :=
  c5_scenario_c c5Oracle "gpt-4o" [primer, ⟨.user, "hello"⟩] c5Resp c5Reply
    rfl (fun _ => rfl) rfl rfl c5Reply_length

/-- A store value this subsystem may legitimately write: a plain string (a
message link) or a context whose turns are a system turn followed only by
user turns. -/
def GoodBlob (v : Blob) : Prop :=
  (∃ s, v = Blob.str s) ∨ ∃ ctx, v = Blob.ctx ctx ∧ userOnlyAfterSystem ctx.params = true

theorem userOnlyAfterSystem_append (ps : List ChatMessageParam) (t : String)
    (h : userOnlyAfterSystem ps = true) :
    userOnlyAfterSystem (ps ++ [⟨.user, t⟩]) = true := by
  cases ps with
  | nil => simp [userOnlyAfterSystem] at h
  | cons sys rest =>
    simp only [userOnlyAfterSystem, List.cons_append, List.all_append,
      Bool.and_eq_true] at h ⊢
    refine ⟨h.1, h.2, ?_⟩
    simp

/-- Every store write of a doOpenAI run is either the persist of the given
(turns, model) context at the given ContextId, or a message link to that
ContextId. -/
theorem doOpenAI_sets (o : Oracle) (chatId : Int) (uid : Nat) (model : String)
    (messages : List ChatMessageParam) (cid : String) (c : Nat) {k : String} {v : Blob} :
    Action.redisSet k v ∈ (doOpenAI o chatId uid model messages cid c).1 →
    (k = cid ∧ v = Blob.ctx ⟨messages, model⟩) ∨
      ∃ mid, k = getMessageId chatId mid ∧ v = Blob.str cid := by
  intro h
  cases hpf : o.placeholderFail with
  | true =>
    rw [doOpenAI, if_pos hpf] at h
    simp [internalError] at h
  | false =>
    obtain ⟨tail, heq, htail⟩ := doOpenAI_shape o chatId uid model messages cid c hpf
    rw [heq] at h
    rcases List.mem_cons.mp h with h | h
    · exact absurd h (by simp)
    · rcases List.mem_cons.mp h with h | h
      · rw [updateContext] at h
        injection h with h1 h2
        exact Or.inl ⟨h1, h2⟩
      · rcases List.mem_cons.mp h with h | h
        · rw [linkMessageWithContext] at h
          injection h with h1 h2
          exact Or.inr ⟨c, h1, h2⟩
        · rcases List.mem_cons.mp h with h | h
          · exact absurd h (by simp)
          · exact Or.inr (htail h)

/-- Every store write of a continuation (reply_handler) is either a message
link, or a context persisted at the resolved ContextId that is exactly the
context loaded from the store with one user turn (the reply text) appended. -/
theorem replyHandler_sets (o : Oracle) (redis : RedisMap) (u : Message) (c : Nat)
    {acts : List Action} {c2 : Nat}
    (hok : replyHandler o redis u c = .ok (acts, c2)) :
    ∀ {k : String} {v : Blob}, Action.redisSet k v ∈ acts →
      (∃ s, v = Blob.str s) ∨
      ∃ context text, rget redis k = some (Blob.ctx context) ∧ u.text = some text ∧
        v = Blob.ctx ⟨context.params ++ [⟨.user, text⟩], context.model⟩ := by
  intro k v hm
  rw [replyHandler] at hok
  cases hrm : u.replyToMessage with
  | none =>
    simp only [hrm] at hok
    obtain ⟨hacts, _⟩ := Prod.mk.injEq .. ▸ (Except.ok.inj hok)
    rw [← hacts] at hm
    simp at hm
  | some replied =>
    simp only [hrm] at hok
    cases hres : rget redis (getMessageId replied.chatId replied.messageId) with
    | none =>
      simp only [hres] at hok
      obtain ⟨hacts, _⟩ := Prod.mk.injEq .. ▸ (Except.ok.inj hok)
      rw [← hacts] at hm
      simp [noContextNotice] at hm
    | some blob =>
      simp only [hres] at hok
      by_cases hemp : blobString blob = ""
      · rw [if_pos hemp] at hok
        obtain ⟨hacts, _⟩ := Prod.mk.injEq .. ▸ (Except.ok.inj hok)
        rw [← hacts] at hm
        simp [noContextNotice] at hm
      · rw [if_neg hemp] at hok
        cases hctx : rget redis (blobString blob) with
        | none =>
          simp only [hctx] at hok
          obtain ⟨hacts, _⟩ := Prod.mk.injEq .. ▸ (Except.ok.inj hok)
          rw [← hacts] at hm
          simp [noContextNotice] at hm
        | some blob2 =>
          simp only [hctx] at hok
          cases blob2 with
          | str s =>
            simp only [] at hok
            obtain ⟨hacts, _⟩ := Prod.mk.injEq .. ▸ (Except.ok.inj hok)
            rw [← hacts] at hm
            simp [noContextNotice] at hm
          | badjson =>
            cases htext : u.text with
            | none =>
              simp only [htext] at hok
              obtain ⟨hacts, _⟩ := Prod.mk.injEq .. ▸ (Except.ok.inj hok)
              rw [← hacts] at hm
              simp [nonTextNotice] at hm
            | some text =>
              simp only [htext] at hok
              exact absurd hok (by simp)
          | ctx context =>
            cases htext : u.text with
            | none =>
              simp only [htext] at hok
              obtain ⟨hacts, _⟩ := Prod.mk.injEq .. ▸ (Except.ok.inj hok)
              rw [← hacts] at hm
              simp [nonTextNotice] at hm
            | some text =>
              simp only [htext] at hok
              obtain ⟨hacts, _⟩ := Prod.mk.injEq .. ▸ (Except.ok.inj hok)
              rw [← hacts] at hm
              rcases doOpenAI_sets o u.chatId u.messageId context.model
                  (context.params ++ [⟨.user, text⟩]) (blobString blob) c hm with
                ⟨hk, hv⟩ | ⟨mid, hk, hv⟩
              · exact Or.inr ⟨context, text, by rw [hk]; exact hctx, rfl, hv⟩
              · exact Or.inl ⟨blobString blob, hv⟩

theorem storeInv_applyActions (m : RedisMap) (acts : List Action)
    (hinv : StoreInv m)
    (hgood : ∀ {k : String} {v : Blob}, Action.redisSet k v ∈ acts → GoodBlob v) :
    StoreInv (applyActions m acts) := by
  induction acts generalizing m with
  | nil => exact hinv
  | cons a rest ih =>
    cases a with
    | redisSet k v =>
      refine ih (rset m k v) ?_ ?_
      · intro k2 ctx2 hmem
        rcases List.mem_cons.mp hmem with hm | hm
        · have hg := hgood (List.mem_cons_self _ _)
          injection hm with hk hv
          rcases hg with ⟨s, hs⟩ | ⟨ctx3, hc, hu⟩
          · rw [hs] at hv
            exact absurd hv (by simp)
          · rw [hc] at hv
            injection hv.symm with he
            rw [← he]
            exact hu
        · exact hinv _ _ hm
      · intro k2 v2 hm
        exact hgood (List.mem_cons_of_mem _ hm)
    | sendMessage a t mid rt md => exact ih m hinv (fun hm => hgood (List.mem_cons_of_mem _ hm))
    | editMessageText a mid t md => exact ih m hinv (fun hm => hgood (List.mem_cons_of_mem _ hm))
    | chatCompletionsCreate a b => exact ih m hinv (fun hm => hgood (List.mem_cons_of_mem _ hm))

/-- Under the store invariant, every store write of one update is a message
link or a well-shaped context (system turn then user turns only). -/
theorem processMessage_good (o : Oracle) (st : AppState) (botID : Int)
    (redis : RedisMap) (u : Message) (c : Nat)
    (hinv : StoreInv redis) {acts : List Action} {c2 : Nat}
    (hok : processMessage o st botID redis u c = .ok (acts, c2)) :
    ∀ {k : String} {v : Blob}, Action.redisSet k v ∈ acts → GoodBlob v := by
  intro k v hm
  rw [processMessage] at hok
  by_cases hwl : st.whitelist.contains u.chatId = true
  · rw [if_pos hwl] at hok
    cases htext : u.text with
    | none =>
      simp only [htext] at hok
      obtain ⟨hacts, _⟩ := Prod.mk.injEq .. ▸ (Except.ok.inj hok)
      rw [← hacts] at hm
      simp at hm
    | some text =>
      simp only [htext] at hok
      by_cases hemp : text = ""
      · rw [if_pos hemp] at hok
        obtain ⟨hacts, _⟩ := Prod.mk.injEq .. ▸ (Except.ok.inj hok)
        rw [← hacts] at hm
        simp at hm
      · rw [if_neg hemp] at hok
        cases hcmd : matchCommand text with
        | some pair =>
          obtain ⟨g1, payload⟩ := pair
          simp only [hcmd] at hok
          obtain ⟨hacts, _⟩ := Prod.mk.injEq .. ▸ (Except.ok.inj hok)
          rw [← hacts] at hm
          rcases doOpenAI_sets _ _ _ _ _ _ _ hm with ⟨hk, hv⟩ | ⟨mid, hk, hv⟩
          · exact Or.inr ⟨_, hv, rfl⟩
          · exact Or.inl ⟨_, hv⟩
        | none =>
          simp only [hcmd] at hok
          by_cases hreply : (match u.replyToMessage with
              | some r => r.fromId == some botID
              | none => false) = true
          · rw [if_pos hreply] at hok
            by_cases hign : isIgnored text.toList = true
            · rw [if_pos hign] at hok
              obtain ⟨hacts, _⟩ := Prod.mk.injEq .. ▸ (Except.ok.inj hok)
              rw [← hacts] at hm
              simp at hm
            · rw [if_neg hign] at hok
              rcases replyHandler_sets o redis u c hok hm with
                ⟨s, hv⟩ | ⟨context, text2, hload, _, hv⟩
              · exact Or.inl ⟨s, hv⟩
              · refine Or.inr ⟨_, hv, ?_⟩
                exact userOnlyAfterSystem_append context.params text2
                  (hinv _ _ (rget_mem hload))
          · rw [if_neg hreply] at hok
            obtain ⟨hacts, _⟩ := Prod.mk.injEq .. ▸ (Except.ok.inj hok)
            rw [← hacts] at hm
            simp at hm
  · rw [if_neg hwl] at hok
    obtain ⟨hacts, _⟩ := Prod.mk.injEq .. ▸ (Except.ok.inj hok)
    rw [← hacts] at hm
    simp at hm

theorem runUpdates_inv (st : AppState) (botID : Int) :
    ∀ (us : List (Message × Oracle)) (m : RedisMap) (c : Nat),
      StoreInv m → StoreInv (runUpdates st botID us m c) := by
  intro us
  induction us with
  | nil => intro m c h; exact h
  | cons p rest ih =>
    intro m c h
    obtain ⟨u, o⟩ := p
    rw [runUpdates]
    cases hok : processMessage o st botID m u c with
    | error e => exact ih m c h
    | ok pair =>
      obtain ⟨acts, c2⟩ := pair
      exact ih _ _ (storeInv_applyActions m acts h
        (fun hm => processMessage_good o st botID m u c h hok hm))

/-- C2 amended: (a) in every store reachable by processing any sequence of
updates from the empty store, every persisted conversation context is the
initial system turn followed only by user-authored turns — assistant turns
are never persisted, so the sequence does not strictly alternate; (b) turns
are only appended: whatever context a continuation persists is exactly the
context loaded from the store with one user turn (the reply text) appended —
nothing is removed or reordered. -/
theorem c2_amended :
    (∀ (st : AppState) (botID : Int) (us : List (Message × Oracle)),
      StoreInv (runUpdates st botID us [] 0)) ∧
    (∀ (o : Oracle) (redis : RedisMap) (u : Message) (c : Nat) (acts : List Action)
        (c2 : Nat) (k : String) (ctx2 : ChatContext),
      replyHandler o redis u c = .ok (acts, c2) →
      Action.redisSet k (Blob.ctx ctx2) ∈ acts →
      ∃ context text, rget redis k = some (Blob.ctx context) ∧ u.text = some text ∧
        ctx2 = ⟨context.params ++ [⟨.user, text⟩], context.model⟩) := by
  constructor
  · intro st botID us
    apply runUpdates_inv
    intro k ctx hmem
    simp at hmem
  · intro o redis u c acts c2 k ctx2 hok hm
    rcases replyHandler_sets o redis u c hok hm with ⟨s, hv⟩ | ⟨context, text, hload, htext, hv⟩
    · exact absurd hv (by simp)
    · injection hv with he
      exact ⟨context, text, hload, htext, he⟩

/-- A continuation message replying to the bot message with id 0 (the
placeholder allocated when the id counter starts at 0). -/
def msgB0 : Message := ⟨100, 60, some "more", some 7, some ⟨100, 0, some 999⟩⟩

/-- C2 amended witness: the invariant applied to the concrete two-update run
(new conversation, then continuation) and the context it stores. -/
theorem c2_amended_witness :
    userOnlyAfterSystem [primer, ⟨.user, "hello"⟩, ⟨.user, "more"⟩] = true :=
  c2_amended.1 stA 999 [(msgA, specOracle), (msgB0, specOracle)] "ctx:100-55"
    ⟨[primer, ⟨.user, "hello"⟩, ⟨.user, "more"⟩], "gpt-4o"⟩ (by decide)

end ChatBot
